import Mathlib

/-!
Verification development for the NTFS link scanner / mutation / undo core
(`src-tauri`).  Rust sources are shallowly embedded: pure functions become
Lean functions on `String` / `List`; filesystem and database effects become
explicit oracles and state passing.  Machine integers become `Nat` (the few
places where Rust uses saturating arithmetic are noted inline).
-/

/- ## Basic data model (src/types.rs) -/

inductive LinkType where
  | Symlink
  | Junction
  | Hardlink
deriving DecidableEq, Repr

inductive LinkStatus where
  | Ok
  | Broken (reason : String)
  | AccessDenied
deriving DecidableEq, Repr

structure LinkEntry where
  path : String
  target : String
  link_type : LinkType
  status : LinkStatus
deriving DecidableEq, Repr

/- ## String helpers mirroring the Rust std behaviour used by the sources.
Rust `str::trim` removes whitespace from both ends; `str::replace('/',"\\")`
replaces every slash; `to_lowercase` lowercases (sources only ever compare
ASCII drive/path text). -/

def rustTrim (s : String) : String :=
  ⟨((s.data.dropWhile Char.isWhitespace).reverse.dropWhile Char.isWhitespace).reverse⟩

def slashToBackslash (c : Char) : Char :=
  if c = '/' then '\\' else c

def dropTrailingBackslashes (l : List Char) : List Char :=
  (l.reverse.dropWhile (fun c => c = '\\')).reverse

/- ## Link-kind text codec (src/db/history.rs lines 21-35) -/

def link_type_to_text : LinkType → String
  | LinkType.Symlink => "Symlink"
  | LinkType.Junction => "Junction"
  | LinkType.Hardlink => "Hardlink"

def link_type_from_text (value : String) : LinkType :=
  if value = "Junction" then LinkType.Junction
  else if value = "Hardlink" then LinkType.Hardlink
  else LinkType.Symlink

/- ## Drive parsing (src/commands/scan.rs lines 98-126) -/

/-- The character-iterator body of `parse_drive_letter`, over the trimmed
input's characters (`drive` is only used in error messages).  The Rust
`match chars.next() { Some(':') => .. , _ => err }` covers both a non-colon
second character and a missing one with the same error. -/
def parseDriveData (drive : String) : List Char → Except String Char
  | [] => Except.error "Drive is empty. Expected format like C:"
  | letter :: rest =>
    if ¬ letter.isAlpha then
      Except.error ("Invalid drive letter in path: " ++ drive)
    else
      match rest with
      | [] => Except.error ("Invalid drive format: " ++ drive ++ ". Expected format like C:")
      | c2 :: remainder =>
        if c2 = ':' then
          if remainder ≠ [] ∧ ¬ remainder.all (fun c => c = '\\' ∨ c = '/') then
            Except.error ("Invalid drive format: " ++ drive ++ ". Expected format like C:")
          else
            Except.ok letter.toUpper
        else Except.error ("Invalid drive format: " ++ drive ++ ". Expected format like C:")

def parse_drive_letter (drive : String) : Except String Char :=
  parseDriveData drive (rustTrim drive).data

def normalize_drive (drive : String) : Except String String :=
  (parse_drive_letter drive).map (fun letter => ⟨[letter, ':', '\\']⟩)

/- ## Exclusion matching (src/commands/scan.rs lines 128-153) -/

def normalize_path_for_prefix_compare (value : String) : String :=
  ⟨(dropTrailingBackslashes ((rustTrim value).data.map slashToBackslash)).map Char.toLower⟩

/-- Body of the closure inside `should_exclude`, applied to the already
normalized candidate text and one raw exclusion entry. -/
def matches_excluded_item (path_text : String) (item : String) : Bool :=
  let excluded_text := normalize_path_for_prefix_compare item
  if excluded_text.isEmpty then false
  else if path_text = excluded_text then true
  else List.isPrefixOf (excluded_text ++ "\\").data path_text.data

def should_exclude (path : String) (excluded : List String) : Bool :=
  let path_text := normalize_path_for_prefix_compare path
  excluded.any (fun item => matches_excluded_item path_text item)

/- ## Action log rows (src/db/history.rs).  The log is modelled as a list in
insertion order; ids are strictly increasing with insertion, so `ORDER BY
id DESC` over rows `WHERE success = 1` is `(log.filter success).reverse`.
`timestamp` is irrelevant to every claim and omitted. -/

structure ActionRow where
  action_type : String
  link_path : String
  link_type_text : String
  target_old : Option String
  target_new : Option String
  success : Bool
  error_msg : Option String
deriving DecidableEq, Repr

/-- The `while let Some(row) = rows.next()` loop of `latest_undo_candidate`
(src/db/history.rs lines 124-157), over the success-filtered, id-descending
row list, carrying `pending_undo_count`.  (`saturating_add` on the `u32`
counter is plain `+ 1` on `Nat`.) -/
def undoScanRows : Nat → List ActionRow → Option ActionRow
  | _, [] => none
  | pending, row :: rest =>
    if row.action_type = "Undo" then undoScanRows (pending + 1) rest
    else if pending > 0 then undoScanRows (pending - 1) rest
    else some row

/-- `latest_undo_candidate` (src/db/history.rs lines 108-158): scan rows with
`success = 1` in descending id order. -/
def latest_undo_candidate (log : List ActionRow) : Option ActionRow :=
  undoScanRows 0 ((log.filter (fun row => row.success)).reverse)

/-- Outcomes of the three internal mutation primitives, abstracting the
filesystem: `undo_last` only inspects their `Result`. -/
structure UndoOps where
  createLink : String → String → LinkType → Bool → Except String Unit
  deleteLink : String → Except String Unit
  retargetLink : String → String → Except String Unit

/-- `undo_last` (src/db/history.rs lines 161-210): pick the candidate, apply
the compensating primitive, append an `Undo` row recording the outcome, and
surface the error if any.  Returns the updated log and the command result. -/
def undo_last (ops : UndoOps) (log : List ActionRow) :
    List ActionRow × Except String Unit :=
  match latest_undo_candidate log with
  | none => (log, Except.error "Nothing to undo")
  | some row =>
    let link_type := link_type_from_text row.link_type_text
    let result : Except String Unit :=
      if row.action_type = "Delete" then
        match row.target_old with
        | none => Except.error "Delete action is missing previous target"
        | some target => ops.createLink row.link_path target link_type false
      else if row.action_type = "Create" then
        ops.deleteLink row.link_path
      else if row.action_type = "Retarget" then
        match row.target_old with
        | none => Except.error "Retarget action is missing old target"
        | some old_target => ops.retargetLink row.link_path old_target
      else
        Except.error ("Undo is not supported for action: " ++ row.action_type)
    let outcome : Bool × Option String :=
      match result with
      | Except.ok _ => (true, none)
      | Except.error error => (false, some error)
    let newRow : ActionRow :=
      { action_type := "Undo", link_path := row.link_path,
        link_type_text := link_type_to_text link_type,
        target_old := row.target_old, target_new := row.target_new,
        success := outcome.1, error_msg := outcome.2 }
    let newLog := log ++ [newRow]
    match outcome.2 with
    | some message => (newLog, Except.error message)
    | none => (newLog, Except.ok ())

/- ## Retarget with rollback (src/commands/links.rs lines 161-173).
The filesystem is abstracted to the state of the one link at `path`:
`Option String` is the stored target (`none` = no link present).  Operation
outcomes come from an environment of oracles; the state transitions mirror
what a successful delete / create does to that link. -/

structure RetargetEnv where
  detectResult : Except String LinkType
  deleteResult : Except String Unit
  createResult : String → Except String Unit

/-- `read_target` (src/commands/links.rs lines 52-56): the stored target, or
the path itself when `read_link` fails (no link present). -/
def read_target (path : String) (st : Option String) : String :=
  st.getD path

/-- Effect of `delete_link_internal` on the link at `path`: on success the
link is gone, on failure the state is unchanged. -/
def delete_link_run (env : RetargetEnv) (st : Option String) :
    Option String × Except String Unit :=
  match env.deleteResult with
  | Except.ok _ => (none, Except.ok ())
  | Except.error e => (st, Except.error e)

/-- Effect of `create_link_internal` toward `target` on the link at `path`:
on success the link stores `target`, on failure the state is unchanged. -/
def create_link_run (env : RetargetEnv) (target : String) (st : Option String) :
    Option String × Except String Unit :=
  match env.createResult target with
  | Except.ok _ => (some target, Except.ok ())
  | Except.error e => (st, Except.error e)

/-- `retarget_link_internal` (src/commands/links.rs lines 161-173): detect,
read the old target, delete, create toward the new target; on creation
failure try to re-create the old target (`let _ =` discards that outcome)
and return the creation error. -/
def retarget_link_internal (env : RetargetEnv) (path new_target : String)
    (st : Option String) : Option String × Except String Unit :=
  match env.detectResult with
  | Except.error e => (st, Except.error e)
  | Except.ok _link_type =>
    let old_target := read_target path st
    let step1 := delete_link_run env st
    match step1.2 with
    | Except.error e => (step1.1, Except.error e)
    | Except.ok _ =>
      let step2 := create_link_run env new_target step1.1
      match step2.2 with
      | Except.ok _ => (step2.1, Except.ok ())
      | Except.error error =>
        let step3 := create_link_run env old_target step2.1
        (step3.1, Except.error error)

/- ## Command wrappers and their logging (src/commands/links.rs lines
175-279).  The internal operation outcome and the link-kind detection are
oracle inputs; the database connection is the log list (`log_action`
appends one row). -/

/-- `create_link` (lines 175-211): run the operation, then always append one
`Create` row whose success flag and error message record the outcome. -/
def create_link_cmd (operation : Except String Unit) (link_path target_path : String)
    (link_type : LinkType) (log : List ActionRow) :
    List ActionRow × Except String Unit :=
  let outcome : Bool × Option String :=
    match operation with
    | Except.ok _ => (true, none)
    | Except.error error => (false, some error)
  let newRow : ActionRow :=
    { action_type := "Create", link_path := link_path,
      link_type_text := link_type_to_text link_type,
      target_old := none, target_new := some target_path,
      success := outcome.1, error_msg := outcome.2 }
  let newLog := log ++ [newRow]
  match outcome.2 with
  | some message => (newLog, Except.error message)
  | none => (newLog, Except.ok ())

/-- `delete_link` (lines 213-245): `detect_link_type(&path)?` runs before any
logging, so a detection failure returns without touching the log; otherwise
exactly one `Delete` row is appended recording the outcome. -/
def delete_link_cmd (detect : Except String LinkType) (read_target_value : String)
    (operation : Except String Unit) (path : String) (log : List ActionRow) :
    List ActionRow × Except String Unit :=
  match detect with
  | Except.error e => (log, Except.error e)
  | Except.ok link_type =>
    let target_old := some read_target_value
    let outcome : Bool × Option String :=
      match operation with
      | Except.ok _ => (true, none)
      | Except.error error => (false, some error)
    let newRow : ActionRow :=
      { action_type := "Delete", link_path := path,
        link_type_text := link_type_to_text link_type,
        target_old := target_old, target_new := none,
        success := outcome.1, error_msg := outcome.2 }
    let newLog := log ++ [newRow]
    match outcome.2 with
    | some message => (newLog, Except.error message)
    | none => (newLog, Except.ok ())

/-- `retarget_link` (lines 247-279): `detect_link_type(&path)?` runs before
any logging, so a detection failure returns without touching the log;
otherwise exactly one `Retarget` row is appended recording the outcome. -/
def retarget_link_cmd (detect : Except String LinkType) (read_target_value : String)
    (operation : Except String Unit) (path new_target : String)
    (log : List ActionRow) : List ActionRow × Except String Unit :=
  match detect with
  | Except.error e => (log, Except.error e)
  | Except.ok link_type =>
    let old_target := some read_target_value
    let outcome : Bool × Option String :=
      match operation with
      | Except.ok _ => (true, none)
      | Except.error error => (false, some error)
    let newRow : ActionRow :=
      { action_type := "Retarget", link_path := path,
        link_type_text := link_type_to_text link_type,
        target_old := old_target, target_new := some new_target,
        success := outcome.1, error_msg := outcome.2 }
    let newLog := log ++ [newRow]
    match outcome.2 with
    | some message => (newLog, Except.error message)
    | none => (newLog, Except.ok ())

/- ## Target validation (src/commands/validate.rs lines 30-58).
The bounded metadata probe (resolve, 500 ms timeout, classify) of the
non-empty branch is abstracted into an oracle producing the status. -/

def validate_one (probe : LinkEntry → LinkStatus) (entry : LinkEntry) : LinkEntry :=
  if (rustTrim entry.target).isEmpty then
    { entry with status := LinkStatus.Broken "target path is empty" }
  else
    { entry with status := probe entry }

/- ## Schema migration (src/db/migrations.rs lines 67-119).
A stored row maps a column name to its SQL text value (`none` = NULL); a
table is its column list plus its rows.  `ALTER TABLE ... ADD COLUMN` with a
`DEFAULT` clause backfills every existing row with the default (SQLite
semantics); without one the new column reads NULL. -/

def DbRow := String → Option String

structure ActionsTable where
  columns : List String
  rows : List DbRow

/-- `add_column_if_missing` (lines 104-119): `default_value` is the value
existing rows read back for the new column (`some v` for a
`DEFAULT v` clause in the column definition, `none` otherwise). -/
def add_column_if_missing (t : ActionsTable) (column_name : String)
    (default_value : Option String) : ActionsTable :=
  if t.columns.contains column_name then t
  else
    { columns := t.columns ++ [column_name],
      rows := t.rows.map (fun r => fun c =>
        if c = column_name then default_value else r c) }

/-- The eight `add_column_if_missing` calls of `ensure_actions_schema`
(lines 82-99), in source order, with the default each SQL column definition
carries. -/
def migrate_actions_columns (t : ActionsTable) : ActionsTable :=
  add_column_if_missing
    (add_column_if_missing
      (add_column_if_missing
        (add_column_if_missing
          (add_column_if_missing
            (add_column_if_missing
              (add_column_if_missing
                (add_column_if_missing t "action_type" (some "Unknown"))
                "link_path" (some ""))
              "link_type" (some "Symlink"))
            "target_old" none)
          "target_new" none)
        "timestamp" (some ""))
      "success" (some "1"))
    "error_msg" none

/-- `ensure_actions_schema` (lines 67-102): require `id`, then add each
missing column with the default from its SQL definition. -/
def ensure_actions_schema (t : ActionsTable) : Except String ActionsTable :=
  if ¬ t.columns.contains "id" then
    Except.error "Migration failed: existing actions table is missing required id column"
  else
    Except.ok (migrate_actions_columns t)

/-- How `get_history` and the undo query read the flag back:
`row.get::<i64>(..)? == 1` (src/db/history.rs line 96, and the
`WHERE success = 1` filter). -/
def row_reads_successful (r : DbRow) : Bool :=
  r "success" == some "1"

/- ## Scan engines (src/commands/scan.rs).  Per-path filesystem facts are an
oracle environment; the enumeration source (walkdir items, or the
file-reference map with paths resolved by `resolve_path_from_frn`) is a
list. -/

def IO_REPARSE_TAG_MOUNT_POINT : Nat := 0xA0000003
def IO_REPARSE_TAG_SYMLINK : Nat := 0xA000000C

structure ScanEnv where
  hardInfo : String → Option (Nat × Nat × Nat)
  hardTarget : String → String
  reparseTag : String → Option Nat
  readLinkTarget : String → Option String
  fallbackResolvedIsDir : String → String → Bool

/-- `map_symlink_type` (lines 166-189): tag decides when readable;
otherwise the resolved-target-is-directory heuristic. -/
def map_symlink_type (env : ScanEnv) (path target : String) : LinkType :=
  match env.reparseTag path with
  | some tag =>
    if tag = IO_REPARSE_TAG_MOUNT_POINT then LinkType.Junction else LinkType.Symlink
  | none =>
    if env.fallbackResolvedIsDir path target then LinkType.Junction else LinkType.Symlink

structure WalkMeta where
  isSymlink : Bool
  isDir : Bool

structure WalkItem where
  path : String
  metadata : Option WalkMeta

/-- The per-item body of `collect_walkdir_entries` (lines 651-713), with the
`seen_hardlinks` set carried explicitly (`metadata = none` is a
`symlink_metadata` failure, skipped with `continue`). -/
def walkGo (env : ScanEnv) (excluded : List String) :
    List WalkItem → List (Nat × Nat) → List LinkEntry
  | [], _ => []
  | item :: rest, seen =>
    if should_exclude item.path excluded then walkGo env excluded rest seen
    else
      match item.metadata with
      | none => walkGo env excluded rest seen
      | some m =>
        if m.isSymlink then
          let target := (env.readLinkTarget item.path).getD ""
          let entry : LinkEntry :=
            { path := item.path, target := target,
              link_type := map_symlink_type env item.path target,
              status := LinkStatus.Ok }
          entry :: walkGo env excluded rest seen
        else if ¬ m.isDir then
          match env.hardInfo item.path with
          | some (volume_serial, file_index, links_count) =>
            if links_count > 1 ∧ (volume_serial, file_index) ∉ seen then
              let entry : LinkEntry :=
                { path := item.path, target := env.hardTarget item.path,
                  link_type := LinkType.Hardlink, status := LinkStatus.Ok }
              entry :: walkGo env excluded rest ((volume_serial, file_index) :: seen)
            else walkGo env excluded rest seen
          | none => walkGo env excluded rest seen
        else walkGo env excluded rest seen

/-- `collect_walkdir_entries` (lines 635-720), restricted to the returned
entry list (batching re-emits the same entries). -/
def collect_walkdir_entries (env : ScanEnv) (excluded : List String)
    (items : List WalkItem) : List LinkEntry :=
  walkGo env excluded items []

structure UsnNodeItem where
  resolvedPath : Option String
  isReparse : Bool
  isDirectory : Bool

/-- The classification loop of `scan_with_usn` (lines 563-628): resolved
path, exclusion, reparse branch (tag `unwrap_or_default`), hard-link branch
with `seen_hardlinks` dedup. -/
def usnGo (env : ScanEnv) (excluded : List String) :
    List UsnNodeItem → List (Nat × Nat) → List LinkEntry
  | [], _ => []
  | node :: rest, seen =>
    match node.resolvedPath with
    | none => usnGo env excluded rest seen
    | some path =>
      if should_exclude path excluded then usnGo env excluded rest seen
      else if node.isReparse then
        let tag := (env.reparseTag path).getD 0
        let link_type :=
          if tag = IO_REPARSE_TAG_MOUNT_POINT then LinkType.Junction else LinkType.Symlink
        let target := (env.readLinkTarget path).getD ""
        let entry : LinkEntry :=
          { path := path, target := target, link_type := link_type,
            status := LinkStatus.Ok }
        entry :: usnGo env excluded rest seen
      else if ¬ node.isDirectory then
        match env.hardInfo path with
        | some (volume_serial, file_index, links_count) =>
          if links_count > 1 ∧ (volume_serial, file_index) ∉ seen then
            let entry : LinkEntry :=
              { path := path, target := env.hardTarget path,
                link_type := LinkType.Hardlink, status := LinkStatus.Ok }
            entry :: usnGo env excluded rest ((volume_serial, file_index) :: seen)
          else usnGo env excluded rest seen
        | none => usnGo env excluded rest seen
      else usnGo env excluded rest seen

/-- The entry-building phase of `scan_with_usn` (lines 556-632). -/
def scan_with_usn_entries (env : ScanEnv) (excluded : List String)
    (nodes : List UsnNodeItem) : List LinkEntry :=
  usnGo env excluded nodes []

/- ## Change-journal record parsing (src/commands/scan.rs lines 354-439).
The page buffer is a byte list; multi-byte fields are little-endian reads.
`UsnRecordV2Header` is `repr(C)` with a `u64` member, so
`size_of::<UsnRecordV2Header>()` is 64 (60 bytes of fields padded to
alignment 8); field offsets follow the C layout.  Besides the parsed output
the model records the read footprint: each `(start, len)` interval is a
byte region the Rust code dereferences (the 8-byte page header, each
64-byte unaligned header read, each file-name slice). -/

def readByte (buf : List Nat) (i : Nat) : Nat :=
  buf.getD i 0

def readLE (buf : List Nat) (off : Nat) : Nat → Nat
  | 0 => 0
  | n + 1 => readByte buf off + 256 * readLE buf (off + 1) n

def usnHeaderSize : Nat := 64

def recordLengthAt (buf : List Nat) (off : Nat) : Nat := readLE buf off 4
def majorVersionAt (buf : List Nat) (off : Nat) : Nat := readLE buf (off + 4) 2
def frnAt (buf : List Nat) (off : Nat) : Nat := readLE buf (off + 8) 8
def parentFrnAt (buf : List Nat) (off : Nat) : Nat := readLE buf (off + 16) 8
def fileAttributesAt (buf : List Nat) (off : Nat) : Nat := readLE buf (off + 52) 4
def fileNameLengthAt (buf : List Nat) (off : Nat) : Nat := readLE buf (off + 56) 2
def fileNameOffsetAt (buf : List Nat) (off : Nat) : Nat := readLE buf (off + 58) 2

/-- The little-endian 16-bit units of the file name
(`slice::from_raw_parts(name_ptr, name_len_u16)`), before lossy decoding. -/
def readName (buf : List Nat) (start : Nat) : Nat → List Nat
  | 0 => []
  | n + 1 => readLE buf start 2 :: readName buf (start + 2) n

structure FrnNode where
  parent_frn : Nat
  name : List Nat
  file_attributes : Nat
deriving DecidableEq, Repr

/-- The `while` loop of `parse_usn_records` (lines 371-436).  Fuel bounds the
iteration count for Lean's termination checker; each iteration advances
`offset` by at least `usnHeaderSize`, so fuel `bytes_returned` is never
exhausted before the loop's own exit conditions fire.  `checked_add` on
`usize` cannot wrap on `Nat`, so its `None` branches disappear.  Returns the
inserted `(frn, node)` pairs and the read footprint. -/
def parseUsnLoop (buf : List Nat) (bytes_returned : Nat) :
    Nat → Nat → List (Nat × FrnNode) × List (Nat × Nat)
  | 0, _ => ([], [])
  | fuel + 1, offset =>
    if bytes_returned - offset ≥ usnHeaderSize then
      let hdrRead : Nat × Nat := (offset, usnHeaderSize)
      let record_length := recordLengthAt buf offset
      if record_length = 0 then ([], [hdrRead])
      else if record_length < usnHeaderSize then ([], [hdrRead])
      else
        let record_end := offset + record_length
        if record_end > bytes_returned then ([], [hdrRead])
        else if majorVersionAt buf offset = 2 then
          let name_start := offset + fileNameOffsetAt buf offset
          let name_len := fileNameLengthAt buf offset
          let name_end := name_start + name_len
          if name_end ≤ record_end ∧ name_len % 2 = 0 then
            let node : FrnNode :=
              { parent_frn := parentFrnAt buf offset,
                name := readName buf name_start (name_len / 2),
                file_attributes := fileAttributesAt buf offset }
            let restOut := parseUsnLoop buf bytes_returned fuel record_end
            ((frnAt buf offset, node) :: restOut.1,
              hdrRead :: (name_start, name_len) :: restOut.2)
          else
            let restOut := parseUsnLoop buf bytes_returned fuel record_end
            (restOut.1, hdrRead :: restOut.2)
        else
          let restOut := parseUsnLoop buf bytes_returned fuel record_end
          (restOut.1, hdrRead :: restOut.2)
    else ([], [])

/-- `parse_usn_records` (lines 354-439): an early return when fewer than 8
bytes came back, else read the next-page starting reference from the 8-byte
page header and parse the concatenated records after it. -/
def parse_usn_records (buf : List Nat) (bytes_returned : Nat) :
    (List (Nat × FrnNode) × List (Nat × Nat)) × Nat :=
  if bytes_returned < 8 then (([], []), 0)
  else
    let next_start_frn := readLE buf 0 8
    let out := parseUsnLoop buf bytes_returned bytes_returned 8
    ((out.1, (0, 8) :: out.2), next_start_frn)

/-- The conditions under which the loop body inserts a node for the record
starting at `offset`: the header itself lies inside the returned bytes, the
declared length is at least the header size and keeps the record inside the
returned bytes, the record is major version 2, and the declared file-name
region has even length and ends within the record. -/
def valid_v2_record_at (buf : List Nat) (bytes_returned offset : Nat) : Prop :=
  offset + usnHeaderSize ≤ bytes_returned ∧
  usnHeaderSize ≤ recordLengthAt buf offset ∧
  offset + recordLengthAt buf offset ≤ bytes_returned ∧
  majorVersionAt buf offset = 2 ∧
  fileNameLengthAt buf offset % 2 = 0 ∧
  offset + fileNameOffsetAt buf offset + fileNameLengthAt buf offset ≤
    offset + recordLengthAt buf offset

/-- The `(frn, node)` pair the loop body builds from the record at `offset`. -/
def frn_node_at (buf : List Nat) (offset : Nat) : Nat × FrnNode :=
  (frnAt buf offset,
    { parent_frn := parentFrnAt buf offset,
      name := readName buf (offset + fileNameOffsetAt buf offset)
        (fileNameLengthAt buf offset / 2),
      file_attributes := fileAttributesAt buf offset })

/- ## Theorems -/

/-- C8: encoding a link kind to its text label and decoding it back is the
identity for all three kinds, and decoding any label other than the three
fixed ones (indeed, any label other than "Junction" and "Hardlink") yields
Symlink. -/
theorem link_type_text_roundtrip :
    (∀ k : LinkType, link_type_from_text (link_type_to_text k) = k) ∧
    (∀ s : String, s ≠ "Junction" → s ≠ "Hardlink" →
      link_type_from_text s = LinkType.Symlink) := by
  constructor
  · intro k
    cases k <;> rfl
  · intro s h1 h2
    simp [link_type_from_text, h1, h2]

/-- Witness for C8 at the concrete unknown label "Mystery". -/
theorem link_type_text_roundtrip_witness :
    link_type_from_text "Mystery" = LinkType.Symlink :=
  link_type_text_roundtrip.2 "Mystery" (by decide) (by decide)

/-- C9: a link entry with an empty target validates to
`Broken "target path is empty")` without consulting the filesystem probe,
and path, target and kind are unchanged. -/
theorem validate_one_empty_target :
    ∀ (probe : LinkEntry → LinkStatus) (entry : LinkEntry),
      entry.target = "" →
      validate_one probe entry =
        { entry with status := LinkStatus.Broken "target path is empty" } ∧
      (validate_one probe entry).path = entry.path ∧
      (validate_one probe entry).target = entry.target ∧
      (validate_one probe entry).link_type = entry.link_type ∧
      ∀ probe2, validate_one probe entry = validate_one probe2 entry := by
  intro probe entry h
  have htrim : (rustTrim entry.target).isEmpty = true := by
    rw [h]; rfl
  simp [validate_one, htrim]

/-- Witness for C9 at a concrete empty-target entry. -/
theorem validate_one_empty_target_witness :
    validate_one (fun _ => LinkStatus.Ok)
        { path := "C:\\tmp\\link", target := "", link_type := LinkType.Symlink,
          status := LinkStatus.Ok } =
      { path := "C:\\tmp\\link", target := "",
        link_type := LinkType.Symlink,
        status := LinkStatus.Broken "target path is empty" } :=
  (validate_one_empty_target (fun _ => LinkStatus.Ok)
    { path := "C:\\tmp\\link", target := "", link_type := LinkType.Symlink,
      status := LinkStatus.Ok } rfl).1

/-- The environment refuting C2 as stated: detection and deletion succeed,
creation toward the new target "T2" fails, and the compensating re-creation
toward the old target also fails. -/
def retargetCexEnv : RetargetEnv :=
  { detectResult := Except.ok LinkType.Symlink,
    deleteResult := Except.ok (),
    createResult := fun target =>
      if target = "T2" then Except.error "create failed"
      else Except.error "rollback failed" }

/-- Counterexample to C2 as stated: when the rollback itself fails, the call
returns only the creation error — the rollback failure is discarded, not
reported — and the link no longer stores its original target "T1" (the
final state is `none`, the link is gone). -/
theorem retarget_rollback_cex :
    retarget_link_internal retargetCexEnv "L" "T2" (some "T1") =
      (none, Except.error "create failed") ∧
    retargetCexEnv.createResult "T1" = Except.error "rollback failed" := by
  constructor
  · simp [retarget_link_internal, retargetCexEnv, delete_link_run,
      create_link_run, read_target]
  · simp [retargetCexEnv]

/-- C2 (amended): when deletion succeeds and creation toward the new target
fails, the engine attempts re-creation toward the previous stored target and
returns the creation error regardless of the rollback outcome; when the
rollback succeeds the link again stores its original target. -/
theorem retarget_rollback_amended :
    ∀ (env : RetargetEnv) (path new_target : String) (st : Option String)
      (lt : LinkType) (e : String),
      env.detectResult = Except.ok lt →
      env.deleteResult = Except.ok () →
      env.createResult new_target = Except.error e →
      (retarget_link_internal env path new_target st).2 = Except.error e ∧
      (env.createResult (read_target path st) = Except.ok () →
        (retarget_link_internal env path new_target st).1 =
          some (read_target path st)) := by
  intro env path new_target st lt e hd hdel hc
  unfold retarget_link_internal delete_link_run create_link_run
  rw [hd, hdel, hc]
  constructor
  · cases hrb : env.createResult (read_target path st) <;> simp [hrb]
  · intro hrb
    simp [hrb]

/-- Witness for C2's amended theorem: a concrete failed retarget whose
rollback succeeds leaves the link pointing at "T1" and surfaces the
creation error. -/
theorem retarget_rollback_amended_witness :
    (retarget_link_internal
        { detectResult := Except.ok LinkType.Symlink,
          deleteResult := Except.ok (),
          createResult := fun target =>
            if target = "T2" then Except.error "create failed" else Except.ok () }
        "L" "T2" (some "T1")).2 = Except.error "create failed" ∧
    (retarget_link_internal
        { detectResult := Except.ok LinkType.Symlink,
          deleteResult := Except.ok (),
          createResult := fun target =>
            if target = "T2" then Except.error "create failed" else Except.ok () }
        "L" "T2" (some "T1")).1 = some "T1" := by
  have h := retarget_rollback_amended
    { detectResult := Except.ok LinkType.Symlink,
      deleteResult := Except.ok (),
      createResult := fun target =>
        if target = "T2" then Except.error "create failed" else Except.ok () }
    "L" "T2" (some "T1") LinkType.Symlink "create failed" rfl rfl (by simp)
  exact ⟨h.1, by simpa [read_target] using h.2 (by simp [read_target])⟩

/-- Row builder used in theorem statements (plain constructor). -/
def mkActionRow (action_type link_path link_type_text : String)
    (target_old target_new : Option String) (success : Bool)
    (error_msg : Option String) : ActionRow :=
  ⟨action_type, link_path, link_type_text, target_old, target_new, success, error_msg⟩

/-- The success flag the logging wrappers store:
`match op { Ok => true, Err => false }`. -/
def outcome_success : Except String Unit → Bool
  | Except.ok _ => true
  | Except.error _ => false

/-- The error message the logging wrappers store, verbatim:
`match op { Ok => None, Err(e) => Some(e) }`. -/
def outcome_error : Except String Unit → Option String
  | Except.ok _ => none
  | Except.error e => some e

/-- Counterexample to C3 as stated: a `delete_link` attempt whose link-kind
detection fails returns before any logging, so zero records (not one) are
written for that attempt. -/
theorem mutation_log_cex :
    (delete_link_cmd (Except.error "Path is not a recognized link type")
        "C:\\x" (Except.ok ()) "C:\\x" []).1 = [] ∧
    (delete_link_cmd (Except.error "Path is not a recognized link type")
        "C:\\x" (Except.ok ()) "C:\\x" []).2 =
      Except.error "Path is not a recognized link type" := by
  constructor <;> rfl

/-- C3 (amended): `create_link` appends exactly one `Create` record per
attempt regardless of outcome; `delete_link` and `retarget_link` append
exactly one record per attempt once link-kind detection has succeeded, but
append none when detection fails; in every record the stored error message
is the operation's error string verbatim. -/
theorem mutation_log_amended :
    (∀ (op : Except String Unit) (lp tp : String) (lt : LinkType)
        (log : List ActionRow),
      (create_link_cmd op lp tp lt log).1 =
        log ++ [mkActionRow "Create" lp (link_type_to_text lt) none (some tp)
          (outcome_success op) (outcome_error op)]) ∧
    (∀ (lt : LinkType) (rt : String) (op : Except String Unit)
        (path : String) (log : List ActionRow),
      (delete_link_cmd (Except.ok lt) rt op path log).1 =
        log ++ [mkActionRow "Delete" path (link_type_to_text lt) (some rt) none
          (outcome_success op) (outcome_error op)]) ∧
    (∀ (lt : LinkType) (rt : String) (op : Except String Unit)
        (path nt : String) (log : List ActionRow),
      (retarget_link_cmd (Except.ok lt) rt op path nt log).1 =
        log ++ [mkActionRow "Retarget" path (link_type_to_text lt) (some rt)
          (some nt) (outcome_success op) (outcome_error op)]) ∧
    (∀ (e rt path nt : String) (op : Except String Unit) (log : List ActionRow),
      (delete_link_cmd (Except.error e) rt op path log).1 = log ∧
      (retarget_link_cmd (Except.error e) rt op path nt log).1 = log) ∧
    (∀ e : String, outcome_error (Except.error e) = some e) := by
  refine ⟨?_, ?_, ?_, ?_, ?_⟩
  · intro op lp tp lt log
    cases op <;> rfl
  · intro lt rt op path log
    cases op <;> rfl
  · intro lt rt op path nt log
    cases op <;> rfl
  · intro e rt path nt op log
    exact ⟨rfl, rfl⟩
  · intro e
    rfl

/-- Witness for C3's amended theorem: a concrete failed create attempt
appends exactly one record carrying the verbatim error. -/
theorem mutation_log_amended_witness :
    (create_link_cmd (Except.error "Link path already exists") "C:\\l" "C:\\t"
        LinkType.Symlink []).1 =
      [mkActionRow "Create" "C:\\l" "Symlink" none (some "C:\\t") false
        (some "Link path already exists")] := by
  simpa using mutation_log_amended.1 (Except.error "Link path already exists")
    "C:\\l" "C:\\t" LinkType.Symlink []

lemma add_column_mem_other (t : ActionsTable) (name other : String)
    (d : Option String) (h : other ≠ name) :
    (other ∈ (add_column_if_missing t name d).columns ↔ other ∈ t.columns) := by
  unfold add_column_if_missing
  split
  · exact Iff.rfl
  · simp [h]

lemma add_column_success_value (t : ActionsTable) (name : String)
    (d : Option String) (h : name ≠ "success") :
    ∀ r2 ∈ (add_column_if_missing t name d).rows,
      ∃ r ∈ t.rows, r2 "success" = r "success" := by
  unfold add_column_if_missing
  split
  · intro r2 hr2
    exact ⟨r2, hr2, rfl⟩
  · intro r2 hr2
    simp only [List.mem_map] at hr2
    obtain ⟨r, hr, hEq⟩ := hr2
    refine ⟨r, hr, ?_⟩
    rw [← hEq]
    simp [Ne.symm h]

lemma add_column_success_sets (t : ActionsTable)
    (h : "success" ∉ t.columns) :
    ∀ r2 ∈ (add_column_if_missing t "success" (some "1")).rows,
      r2 "success" = some "1" := by
  unfold add_column_if_missing
  have hc : t.columns.contains "success" = false := by
    simpa using h
  rw [hc]
  intro r2 hr2
  simp only [Bool.false_eq_true, if_false, List.mem_map] at hr2
  obtain ⟨r, _, hEq⟩ := hr2
  rw [← hEq]
  simp

lemma add_column_rows_length (t : ActionsTable) (name : String)
    (d : Option String) :
    (add_column_if_missing t name d).rows.length = t.rows.length := by
  unfold add_column_if_missing
  split
  · rfl
  · simp

/-- C10: migrating a legacy actions table that has `id` but lacks `success`
succeeds, keeps every row, and leaves every pre-existing row reading back
as successful (`success = 1`), hence inside the undo scan's
`success = 1` filter. -/
theorem migration_success_default :
    ∀ t : ActionsTable, "id" ∈ t.columns → "success" ∉ t.columns →
      ∃ t2, ensure_actions_schema t = Except.ok t2 ∧
        t2.rows.length = t.rows.length ∧
        ∀ r ∈ t2.rows, r "success" = some "1" ∧ row_reads_successful r = true := by
  intro t h1 h2
  have hid : t.columns.contains "id" = true := by simpa using h1
  have h6 : "success" ∉
      (add_column_if_missing
        (add_column_if_missing
          (add_column_if_missing
            (add_column_if_missing
              (add_column_if_missing
                (add_column_if_missing t "action_type" (some "Unknown"))
                "link_path" (some ""))
              "link_type" (some "Symlink"))
            "target_old" none)
          "target_new" none)
        "timestamp" (some "")).columns := by
    rw [add_column_mem_other _ _ _ _ (by decide), add_column_mem_other _ _ _ _ (by decide),
      add_column_mem_other _ _ _ _ (by decide), add_column_mem_other _ _ _ _ (by decide),
      add_column_mem_other _ _ _ _ (by decide), add_column_mem_other _ _ _ _ (by decide)]
    exact h2
  refine ⟨migrate_actions_columns t, ?_, ?_, ?_⟩
  · simp only [ensure_actions_schema]
    rw [if_neg (by simpa using h1)]
  · simp [migrate_actions_columns, add_column_rows_length]
  · intro r hr
    obtain ⟨r7, hr7, hval⟩ :=
      add_column_success_value _ "error_msg" none (by decide) r hr
    have hset := add_column_success_sets _ h6 r7 hr7
    have hone : r "success" = some "1" := hval.trans hset
    exact ⟨hone, by simp [row_reads_successful, hone]⟩

/-- Witness for C10: the legacy seven-column table from the repository's own
migration test, with one row. -/
theorem migration_success_default_witness :
    ∃ t2, ensure_actions_schema
        { columns := ["id", "action_type", "link_path", "link_type",
            "target_old", "target_new", "timestamp"],
          rows := [fun _ => none] } = Except.ok t2 ∧
      t2.rows.length = 1 ∧
      ∀ r ∈ t2.rows, r "success" = some "1" ∧ row_reads_successful r = true := by
  obtain ⟨t2, hrun, hlen, hrows⟩ := migration_success_default
    { columns := ["id", "action_type", "link_path", "link_type",
        "target_old", "target_new", "timestamp"],
      rows := [fun _ => none] } (by decide) (by decide)
  exact ⟨t2, hrun, by simpa using hlen, hrows⟩


/-- Counterexample to C5 as stated: the bare-letter form "C" (no colon) is
rejected, not accepted — the second character must be ':'. -/
theorem drive_letter_cex :
    normalize_drive "C" =
      Except.error "Invalid drive format: C. Expected format like C:" := rfl

lemma all_sep_iff (rest : List Char) :
    rest.all (fun c => decide (c = '\\' ∨ c = '/')) = true ↔
      ∀ c ∈ rest, c = '\\' ∨ c = '/' := by
  simp [List.all_eq_true]


lemma parseDriveData_ok_iff (d : String) (l : List Char) (c : Char) :
    parseDriveData d l = Except.ok c ↔
      ∃ letter rest, l = letter :: ':' :: rest ∧
        letter.isAlpha = true ∧ (∀ x ∈ rest, x = '\\' ∨ x = '/') ∧
        c = letter.toUpper := by
  cases l with
  | nil => simp [parseDriveData]
  | cons letter rest0 =>
    simp only [parseDriveData]
    by_cases hl : letter.isAlpha = true
    · rw [if_neg (by simp [hl])]
      cases rest0 with
      | nil =>
        constructor
        · intro h
          exact absurd h (by simp)
        · rintro ⟨l2, r2, heq, -, -, -⟩
          simp at heq
      | cons c2 rem =>
        dsimp only
        by_cases hc2 : c2 = ':'
        · subst hc2
          by_cases hrem : rem ≠ [] ∧
              ¬ rem.all (fun x => decide (x = '\\' ∨ x = '/')) = true
          · rw [if_pos hrem]
            constructor
            · intro h
              exact absurd h (by simp)
            · rintro ⟨l2, r2, heq, -, hsep, -⟩
              obtain ⟨h1, h2⟩ := List.cons.inj heq
              obtain ⟨h3, h4⟩ := List.cons.inj h2
              subst h4
              exact absurd ((all_sep_iff _).2 hsep) hrem.2
          · rw [if_neg hrem]
            push_neg at hrem
            constructor
            · intro h
              obtain h1 := Except.ok.inj h
              refine ⟨letter, rem, rfl, hl, ?_, h1.symm⟩
              intro x hx
              rcases eq_or_ne rem [] with hnil | hnil
              · subst hnil
                simp at hx
              · exact (all_sep_iff _).1 (hrem hnil) x hx
            · rintro ⟨l2, r2, heq, -, -, hc⟩
              obtain ⟨h1, h2⟩ := List.cons.inj heq
              subst h1
              simp [hc]
        · rw [if_neg hc2]
          constructor
          · intro h
            exact absurd h (by simp)
          · rintro ⟨l2, r2, heq, -, -, -⟩
            obtain ⟨h1, h2⟩ := List.cons.inj heq
            obtain ⟨h3, -⟩ := List.cons.inj h2
            exact absurd h3 hc2
    · rw [if_pos (by simpa using hl)]
      constructor
      · intro h
        exact absurd h (by simp)
      · rintro ⟨l2, r2, heq, hal2, -, -⟩
        obtain ⟨h1, -⟩ := List.cons.inj heq
        subst h1
        exact absurd hal2 hl

lemma parse_drive_letter_ok_iff (d : String) (c : Char) :
    parse_drive_letter d = Except.ok c ↔
      ∃ letter rest, (rustTrim d).data = letter :: ':' :: rest ∧
        letter.isAlpha = true ∧ (∀ x ∈ rest, x = '\\' ∨ x = '/') ∧
        c = letter.toUpper :=
  parseDriveData_ok_iff d (rustTrim d).data c

lemma normalize_drive_ok_iff (d s : String) :
    normalize_drive d = Except.ok s ↔
      ∃ c, parse_drive_letter d = Except.ok c ∧ s = ⟨[c, ':', '\\']⟩ := by
  cases h : parse_drive_letter d <;>
    simp [normalize_drive, Except.map, h, eq_comm]

/-- C5 (amended): drive normalization accepts exactly the inputs whose
trimmed form is a letter, then ':', then a (possibly empty) run of
separators — the bare letter `X` without a colon is rejected — and every
accepted input yields the three-character string made of the uppercased
letter, ':' and '\'.  The stated rejection examples are rejected. -/
theorem normalize_drive_amended :
    (∀ d : String, (∃ s, normalize_drive d = Except.ok s) ↔
      ∃ letter rest, (rustTrim d).data = letter :: ':' :: rest ∧
        letter.isAlpha = true ∧ ∀ c ∈ rest, c = '\\' ∨ c = '/') ∧
    (∀ (d : String) (letter : Char) (rest : List Char),
      (rustTrim d).data = letter :: ':' :: rest →
      letter.isAlpha = true → (∀ c ∈ rest, c = '\\' ∨ c = '/') →
      normalize_drive d = Except.ok ⟨[letter.toUpper, ':', '\\']⟩) ∧
    (∀ (d s : String), normalize_drive d = Except.ok s →
      ∃ letter : Char, letter.isAlpha = true ∧
        s = ⟨[letter.toUpper, ':', '\\']⟩) ∧
    (∃ e, normalize_drive "C:\\Windows" = Except.error e) ∧
    (∃ e, normalize_drive "..\\" = Except.error e) ∧
    (∃ e, normalize_drive "\\\\.\\PhysicalDrive0" = Except.error e) := by
  refine ⟨?_, ?_, ?_, ⟨_, rfl⟩, ⟨_, rfl⟩, ⟨_, rfl⟩⟩
  · intro d
    constructor
    · rintro ⟨s, hs⟩
      obtain ⟨c, hc, -⟩ := (normalize_drive_ok_iff d s).1 hs
      obtain ⟨letter, rest, hdata, hal, hsep, -⟩ :=
        (parse_drive_letter_ok_iff d c).1 hc
      exact ⟨letter, rest, hdata, hal, hsep⟩
    · rintro ⟨letter, rest, hdata, hal, hsep⟩
      refine ⟨⟨[letter.toUpper, ':', '\\']⟩, ?_⟩
      exact (normalize_drive_ok_iff d _).2
        ⟨letter.toUpper,
          (parse_drive_letter_ok_iff d _).2 ⟨letter, rest, hdata, hal, hsep, rfl⟩,
          rfl⟩
  · intro d letter rest hdata hal hsep
    exact (normalize_drive_ok_iff d _).2
      ⟨letter.toUpper,
        (parse_drive_letter_ok_iff d _).2 ⟨letter, rest, hdata, hal, hsep, rfl⟩,
        rfl⟩
  · intro d s hs
    obtain ⟨c, hc, hsv⟩ := (normalize_drive_ok_iff d s).1 hs
    obtain ⟨letter, rest, hdata, hal, hsep, hcv⟩ :=
      (parse_drive_letter_ok_iff d c).1 hc
    exact ⟨letter, hal, by rw [hsv, hcv]⟩

/-- Witness for C5's amended theorem: the accepted concrete forms from the
repository's own tests normalize as claimed. -/
theorem normalize_drive_amended_witness :
    normalize_drive "c:" = Except.ok "C:\\" ∧
    normalize_drive "D:\\" = Except.ok "D:\\" ∧
    normalize_drive " e:/ " = Except.ok "E:\\" := by
  refine ⟨?_, ?_, ?_⟩
  · have h := normalize_drive_amended.2.1 "c:" 'c' [] (by decide) (by decide)
      (by decide)
    simpa using h
  · have h := normalize_drive_amended.2.1 "D:\\" 'D' ['\\'] (by decide)
      (by decide) (by decide)
    simpa using h
  · have h := normalize_drive_amended.2.1 " e:/ " 'e' ['/'] (by decide)
      (by decide) (by decide)
    simpa using h

lemma matches_excluded_item_iff (path_text : String) (item : String) :
    matches_excluded_item path_text item = true ↔
      normalize_path_for_prefix_compare item ≠ "" ∧
        (path_text = normalize_path_for_prefix_compare item ∨
          List.isPrefixOf (normalize_path_for_prefix_compare item ++ "\\").data
            path_text.data = true) := by
  unfold matches_excluded_item
  by_cases h1 : (normalize_path_for_prefix_compare item).isEmpty = true
  · rw [if_pos h1]
    simp only [String.isEmpty_iff] at h1
    simp [h1]
  · rw [if_neg h1]
    simp only [String.isEmpty_iff] at h1
    by_cases h2 : path_text = normalize_path_for_prefix_compare item
    · rw [if_pos h2]
      simp [h1, h2]
    · rw [if_neg h2]
      simp [h1, h2]

/-- C6: the exclusion check matches a candidate against an entry iff, after
normalization (lowercase, slashes to backslashes, trim, strip trailing
separators), the candidate equals the entry or extends it past a '\'
boundary; an entry normalizing to the empty string never matches; and the
claim's concrete boundary example does not match while a true extension
does. -/
theorem should_exclude_spec :
    (∀ (p : String) (l : List String),
      should_exclude p l = true ↔
        ∃ e ∈ l, normalize_path_for_prefix_compare e ≠ "" ∧
          (normalize_path_for_prefix_compare p = normalize_path_for_prefix_compare e ∨
            List.isPrefixOf (normalize_path_for_prefix_compare e ++ "\\").data
              (normalize_path_for_prefix_compare p).data = true)) ∧
    (∀ (p e : String), normalize_path_for_prefix_compare e = "" →
      matches_excluded_item (normalize_path_for_prefix_compare p) e = false) ∧
    should_exclude "C:\\data\\archives\\x" ["C:\\data\\archive"] = false ∧
    should_exclude "C:\\data\\archive\\x" ["C:\\data\\archive"] = true := by
  refine ⟨?_, ?_, by decide, by decide⟩
  · intro p l
    unfold should_exclude
    rw [List.any_eq_true]
    constructor
    · rintro ⟨e, he, hm⟩
      exact ⟨e, he, (matches_excluded_item_iff _ e).1 hm⟩
    · rintro ⟨e, he, hm⟩
      exact ⟨e, he, (matches_excluded_item_iff _ e).2 hm⟩
  · intro p e hempty
    by_contra hne
    have hm : matches_excluded_item (normalize_path_for_prefix_compare p) e = true := by
      revert hne
      cases matches_excluded_item (normalize_path_for_prefix_compare p) e <;> simp
    have := ((matches_excluded_item_iff _ e).1 hm).1
    exact this hempty

/-- Witness for C6 at the claim's concrete paths. -/
theorem should_exclude_spec_witness :
    should_exclude "C:\\data\\archive\\item.txt" ["C:\\data\\archive"] = true :=
  (should_exclude_spec.1 "C:\\data\\archive\\item.txt" ["C:\\data\\archive"]).2
    ⟨"C:\\data\\archive", by decide, by decide, Or.inr (by decide)⟩

/-- C1: the undo scan's counter semantics — over success-filtered rows in
descending id order, each `Undo` row increments the pending counter and a
positive counter consumes (skips) the next non-`Undo` row, so a block of
`Undo` rows shifts the scan by its length and, absent `Undo` rows, the scan
selects the row `pending` positions in; on the log
(Create A, Create B, Undo) the selected target is Create A; and when no
target is found, `undo_last` fails with the nothing-to-undo error. -/
theorem undo_candidate_spec :
    (∀ (k : Nat) (l : List ActionRow), (∀ r ∈ l, r.action_type ≠ "Undo") →
      undoScanRows k l = (l.drop k).head?) ∧
    (∀ (k : Nat) (us l : List ActionRow), (∀ r ∈ us, r.action_type = "Undo") →
      undoScanRows k (us ++ l) = undoScanRows (k + us.length) l) ∧
    latest_undo_candidate
      [mkActionRow "Create" "C:\\tmp\\A" "Symlink" none (some "C:\\tmp\\t1") true none,
        mkActionRow "Create" "C:\\tmp\\B" "Symlink" none (some "C:\\tmp\\t2") true none,
        mkActionRow "Undo" "C:\\tmp\\B" "Symlink" none (some "C:\\tmp\\t2") true none] =
      some (mkActionRow "Create" "C:\\tmp\\A" "Symlink" none (some "C:\\tmp\\t1") true none) ∧
    (∀ (ops : UndoOps) (log : List ActionRow), latest_undo_candidate log = none →
      undo_last ops log = (log, Except.error "Nothing to undo")) := by
  refine ⟨?_, ?_, by decide, ?_⟩
  · intro k l
    induction l generalizing k with
    | nil => intro _; simp [undoScanRows]
    | cons r rest ih =>
      intro hno
      have hr : r.action_type ≠ "Undo" := hno r (by simp)
      cases k with
      | zero =>
        simp [undoScanRows, hr]
      | succ k2 =>
        have := ih (k2 + 1) (fun x hx => hno x (by simp [hx]))
        simp only [undoScanRows, if_neg hr]
        rw [if_pos (Nat.succ_pos k2)]
        have h2 := ih k2 (fun x hx => hno x (by simp [hx]))
        simpa using h2
  · intro k us l
    induction us generalizing k with
    | nil => intro _; simp
    | cons u us2 ih =>
      intro hall
      have hu : u.action_type = "Undo" := hall u (by simp)
      have h2 := ih (k + 1) (fun x hx => hall x (by simp [hx]))
      simp only [List.cons_append, undoScanRows, if_pos hu]
      rw [show us2.append l = us2 ++ l from rfl, h2]
      congr 1
      simp only [List.length_cons]
      omega
  · intro ops log h
    unfold undo_last
    rw [h]

/-- Witness for C1: the general scan lemma at a concrete two-row log with
counter 1, and the nothing-to-undo failure on the empty log. -/
theorem undo_candidate_spec_witness :
    undoScanRows 1
      [mkActionRow "Create" "A" "Symlink" none none true none,
        mkActionRow "Create" "B" "Symlink" none none true none] =
      some (mkActionRow "Create" "B" "Symlink" none none true none) ∧
    undo_last
      { createLink := fun _ _ _ _ => Except.ok (),
        deleteLink := fun _ => Except.ok (),
        retargetLink := fun _ _ => Except.ok () } [] =
      ([], Except.error "Nothing to undo") := by
  constructor
  · have h := undo_candidate_spec.1 1
      [mkActionRow "Create" "A" "Symlink" none none true none,
        mkActionRow "Create" "B" "Symlink" none none true none] (by decide)
    simpa using h
  · exact undo_candidate_spec.2.2.2 _ [] (by decide)

/-- Does one emitted record match hard-link identity `p`?  The record's
identity is recovered through the same `get_hardlink_info` oracle the scan
used for its path. -/
def entryPairMatches (env : ScanEnv) (p : Nat × Nat) (e : LinkEntry) : Bool :=
  decide (e.link_type = LinkType.Hardlink) &&
    (match env.hardInfo e.path with
      | some info => decide ((info.1, info.2.1) = p)
      | none => false)

def hardlinkRecordCount (env : ScanEnv) (p : Nat × Nat)
    (out : List LinkEntry) : Nat :=
  out.countP (fun e => entryPairMatches env p e)

lemma hardlinkRecordCount_nil (env : ScanEnv) (p : Nat × Nat) :
    hardlinkRecordCount env p [] = 0 := rfl

lemma hardlinkRecordCount_cons (env : ScanEnv) (p : Nat × Nat) (e : LinkEntry)
    (out : List LinkEntry) :
    hardlinkRecordCount env p (e :: out) =
      hardlinkRecordCount env p out +
        if entryPairMatches env p e then 1 else 0 := by
  simp [hardlinkRecordCount, List.countP_cons]

lemma map_symlink_type_ne_hard (env : ScanEnv) (path target : String) :
    map_symlink_type env path target ≠ LinkType.Hardlink := by
  unfold map_symlink_type
  split <;> split <;> simp

lemma entryPairMatches_of_ne (env : ScanEnv) (p : Nat × Nat) (e : LinkEntry)
    (h : e.link_type ≠ LinkType.Hardlink) :
    entryPairMatches env p e = false := by
  simp [entryPairMatches, h]

lemma entryPairMatches_hard (env : ScanEnv) (p : Nat × Nat) (pth tgt : String)
    (s i c : Nat) (hinfo : env.hardInfo pth = some (s, i, c)) :
    entryPairMatches env p ⟨pth, tgt, LinkType.Hardlink, LinkStatus.Ok⟩ =
      decide ((s, i) = p) := by
  simp [entryPairMatches, hinfo]

lemma walkGo_count_seen (env : ScanEnv) (ex : List String) (p : Nat × Nat)
    (items : List WalkItem) (seen : List (Nat × Nat)) (hp : p ∈ seen) :
    hardlinkRecordCount env p (walkGo env ex items seen) = 0 := by
  revert hp
  induction items, seen using walkGo.induct env ex with
  | case1 seen =>
    intro hp
    simp [walkGo, hardlinkRecordCount_nil]
  | case2 item rest seen hex ih =>
    intro hp
    rw [walkGo, if_pos hex]
    exact ih hp
  | case3 item rest seen hex hmeta ih =>
    intro hp
    rw [walkGo, if_neg hex, hmeta]
    exact ih hp
  | case4 item rest seen hex m hmeta hsym ih =>
    intro hp
    have hf := entryPairMatches_of_ne env p
      ⟨item.path, (env.readLinkTarget item.path).getD "",
        map_symlink_type env item.path ((env.readLinkTarget item.path).getD ""),
        LinkStatus.Ok⟩ (map_symlink_type_ne_hard env item.path _)
    rw [walkGo, if_neg hex, hmeta]
    dsimp only
    rw [if_pos hsym]
    rw [hardlinkRecordCount_cons, hf]
    simpa using ih hp
  | case5 item rest seen hex m hmeta hsym hdir s i c hinfo hcond ih =>
    intro hp
    have hne : (s, i) ≠ p := fun hEq => hcond.2 (hEq ▸ hp)
    have hf := entryPairMatches_hard env p item.path (env.hardTarget item.path)
      s i c hinfo
    rw [walkGo, if_neg hex, hmeta]
    dsimp only
    rw [if_neg hsym, if_pos hdir, hinfo]
    dsimp only
    rw [if_pos hcond]
    rw [hardlinkRecordCount_cons, hf, if_neg (by simpa using hne)]
    simpa using ih (List.mem_cons_of_mem _ hp)
  | case6 item rest seen hex m hmeta hsym hdir s i c hinfo hcond ih =>
    intro hp
    rw [walkGo, if_neg hex, hmeta]
    dsimp only
    rw [if_neg hsym, if_pos hdir, hinfo]
    dsimp only
    rw [if_neg hcond]
    exact ih hp
  | case7 item rest seen hex m hmeta hsym hdir hinfo ih =>
    intro hp
    rw [walkGo, if_neg hex, hmeta]
    dsimp only
    rw [if_neg hsym, if_pos hdir, hinfo]
    exact ih hp
  | case8 item rest seen hex m hmeta hsym hdir ih =>
    intro hp
    rw [walkGo, if_neg hex, hmeta]
    dsimp only
    rw [if_neg hsym, if_neg hdir]
    exact ih hp

lemma walkGo_count_le_one (env : ScanEnv) (ex : List String) (p : Nat × Nat)
    (items : List WalkItem) (seen : List (Nat × Nat)) :
    hardlinkRecordCount env p (walkGo env ex items seen) ≤ 1 := by
  induction items, seen using walkGo.induct env ex with
  | case1 seen =>
    simp [walkGo, hardlinkRecordCount_nil]
  | case2 item rest seen hex ih =>
    rw [walkGo, if_pos hex]
    exact ih
  | case3 item rest seen hex hmeta ih =>
    rw [walkGo, if_neg hex, hmeta]
    exact ih
  | case4 item rest seen hex m hmeta hsym ih =>
    have hf := entryPairMatches_of_ne env p
      ⟨item.path, (env.readLinkTarget item.path).getD "",
        map_symlink_type env item.path ((env.readLinkTarget item.path).getD ""),
        LinkStatus.Ok⟩ (map_symlink_type_ne_hard env item.path _)
    rw [walkGo, if_neg hex, hmeta]
    dsimp only
    rw [if_pos hsym]
    rw [hardlinkRecordCount_cons, hf]
    simpa using ih
  | case5 item rest seen hex m hmeta hsym hdir s i c hinfo hcond ih =>
    have hf := entryPairMatches_hard env p item.path (env.hardTarget item.path)
      s i c hinfo
    rw [walkGo, if_neg hex, hmeta]
    dsimp only
    rw [if_neg hsym, if_pos hdir, hinfo]
    dsimp only
    rw [if_pos hcond]
    rw [hardlinkRecordCount_cons, hf]
    by_cases hq : (s, i) = p
    · rw [if_pos (by simpa using hq)]
      have hzero := walkGo_count_seen env ex p rest ((s, i) :: seen)
        (by simp [hq])
      omega
    · rw [if_neg (by simpa using hq)]
      simpa using ih
  | case6 item rest seen hex m hmeta hsym hdir s i c hinfo hcond ih =>
    rw [walkGo, if_neg hex, hmeta]
    dsimp only
    rw [if_neg hsym, if_pos hdir, hinfo]
    dsimp only
    rw [if_neg hcond]
    exact ih
  | case7 item rest seen hex m hmeta hsym hdir hinfo ih =>
    rw [walkGo, if_neg hex, hmeta]
    dsimp only
    rw [if_neg hsym, if_pos hdir, hinfo]
    exact ih
  | case8 item rest seen hex m hmeta hsym hdir ih =>
    rw [walkGo, if_neg hex, hmeta]
    dsimp only
    rw [if_neg hsym, if_neg hdir]
    exact ih

/-- A scan item that qualifies as a reachable hard-linked file with identity
`p`: not excluded, metadata readable, a non-symlink non-directory entry, and
the hard-link probe reports identity `p` with more than one link. -/
def walkHardQualifier (env : ScanEnv) (ex : List String) (p : Nat × Nat)
    (it : WalkItem) : Prop :=
  should_exclude it.path ex = false ∧
  (∃ m, it.metadata = some m ∧ m.isSymlink = false ∧ m.isDir = false) ∧
  ∃ c, env.hardInfo it.path = some (p.1, p.2, c) ∧ 1 < c

lemma walkGo_count_eq_one (env : ScanEnv) (ex : List String) (p : Nat × Nat)
    (items : List WalkItem) (seen : List (Nat × Nat)) (hp : p ∉ seen)
    (hq : ∃ it ∈ items, walkHardQualifier env ex p it) :
    hardlinkRecordCount env p (walkGo env ex items seen) = 1 := by
  revert hp hq
  induction items, seen using walkGo.induct env ex with
  | case1 seen =>
    rintro hp ⟨it, hit, -⟩
    simp at hit
  | case2 item rest seen hex ih =>
    rintro hp ⟨it, hit, hqual⟩
    rcases List.mem_cons.1 hit with hhead | htail
    · subst hhead
      rw [hqual.1] at hex
      simp at hex
    · rw [walkGo, if_pos hex]
      exact ih hp ⟨it, htail, hqual⟩
  | case3 item rest seen hex hmeta ih =>
    rintro hp ⟨it, hit, hqual⟩
    rcases List.mem_cons.1 hit with hhead | htail
    · subst hhead
      obtain ⟨-, ⟨m, hm, -, -⟩, -⟩ := hqual
      rw [hmeta] at hm
      simp at hm
    · rw [walkGo, if_neg hex, hmeta]
      exact ih hp ⟨it, htail, hqual⟩
  | case4 item rest seen hex m hmeta hsym ih =>
    rintro hp ⟨it, hit, hqual⟩
    have hf := entryPairMatches_of_ne env p
      ⟨item.path, (env.readLinkTarget item.path).getD "",
        map_symlink_type env item.path ((env.readLinkTarget item.path).getD ""),
        LinkStatus.Ok⟩ (map_symlink_type_ne_hard env item.path _)
    rcases List.mem_cons.1 hit with hhead | htail
    · subst hhead
      obtain ⟨-, ⟨m2, hm2, hm2sym, -⟩, -⟩ := hqual
      rw [hmeta] at hm2
      obtain h := Option.some.inj hm2
      rw [h] at hsym
      rw [hm2sym] at hsym
      simp at hsym
    · rw [walkGo, if_neg hex, hmeta]
      dsimp only
      rw [if_pos hsym]
      rw [hardlinkRecordCount_cons, hf]
      simpa using ih hp ⟨it, htail, hqual⟩
  | case5 item rest seen hex m hmeta hsym hdir s i c hinfo hcond ih =>
    rintro hp ⟨it, hit, hqual⟩
    have hf := entryPairMatches_hard env p item.path (env.hardTarget item.path)
      s i c hinfo
    rw [walkGo, if_neg hex, hmeta]
    dsimp only
    rw [if_neg hsym, if_pos hdir, hinfo]
    dsimp only
    rw [if_pos hcond]
    rw [hardlinkRecordCount_cons, hf]
    by_cases hpq : (s, i) = p
    · rw [if_pos (by simpa using hpq)]
      have hzero := walkGo_count_seen env ex p rest ((s, i) :: seen)
        (by simp [hpq])
      omega
    · rw [if_neg (by simpa using hpq)]
      rcases List.mem_cons.1 hit with hhead | htail
      · subst hhead
        obtain ⟨-, -, ⟨c2, hc2, -⟩⟩ := hqual
        rw [hinfo] at hc2
        obtain h := Option.some.inj hc2
        obtain ⟨h1, h23⟩ := Prod.mk.inj h
        obtain ⟨h2, -⟩ := Prod.mk.inj h23
        exact absurd (by rw [h1, h2]) hpq
      · have hp2 : p ∉ (s, i) :: seen := by
          intro hmem
          rcases List.mem_cons.1 hmem with h1 | h2
          · exact hpq h1.symm
          · exact hp h2
        simpa using ih hp2 ⟨it, htail, hqual⟩
  | case6 item rest seen hex m hmeta hsym hdir s i c hinfo hcond ih =>
    rintro hp ⟨it, hit, hqual⟩
    rcases List.mem_cons.1 hit with hhead | htail
    · subst hhead
      obtain ⟨-, -, ⟨c2, hc2, hc2gt⟩⟩ := hqual
      rw [hinfo] at hc2
      obtain h := Option.some.inj hc2
      obtain ⟨h1, h23⟩ := Prod.mk.inj h
      obtain ⟨h2, h3⟩ := Prod.mk.inj h23
      refine absurd ?_ hcond
      refine ⟨by omega, ?_⟩
      intro hmem
      apply hp
      have hsp : (s, i) = p := by rw [h1, h2]
      rwa [hsp] at hmem
    · rw [walkGo, if_neg hex, hmeta]
      dsimp only
      rw [if_neg hsym, if_pos hdir, hinfo]
      dsimp only
      rw [if_neg hcond]
      exact ih hp ⟨it, htail, hqual⟩
  | case7 item rest seen hex m hmeta hsym hdir hinfo ih =>
    rintro hp ⟨it, hit, hqual⟩
    rcases List.mem_cons.1 hit with hhead | htail
    · subst hhead
      obtain ⟨-, -, ⟨c2, hc2, -⟩⟩ := hqual
      rw [hinfo] at hc2
      simp at hc2
    · rw [walkGo, if_neg hex, hmeta]
      dsimp only
      rw [if_neg hsym, if_pos hdir, hinfo]
      exact ih hp ⟨it, htail, hqual⟩
  | case8 item rest seen hex m hmeta hsym hdir ih =>
    rintro hp ⟨it, hit, hqual⟩
    rcases List.mem_cons.1 hit with hhead | htail
    · subst hhead
      obtain ⟨-, ⟨m2, hm2, -, hm2dir⟩, -⟩ := hqual
      rw [hmeta] at hm2
      obtain h := Option.some.inj hm2
      rw [h] at hdir
      rw [hm2dir] at hdir
      simp at hdir
    · rw [walkGo, if_neg hex, hmeta]
      dsimp only
      rw [if_neg hsym, if_neg hdir]
      exact ih hp ⟨it, htail, hqual⟩

lemma usn_reparse_type_ne_hard (tag : Nat) :
    (if tag = IO_REPARSE_TAG_MOUNT_POINT then LinkType.Junction
      else LinkType.Symlink) ≠ LinkType.Hardlink := by
  split <;> simp

lemma usnGo_count_seen (env : ScanEnv) (ex : List String) (p : Nat × Nat)
    (nodes : List UsnNodeItem) (seen : List (Nat × Nat)) (hp : p ∈ seen) :
    hardlinkRecordCount env p (usnGo env ex nodes seen) = 0 := by
  revert hp
  induction nodes, seen using usnGo.induct env ex with
  | case1 seen =>
    intro hp
    simp [usnGo, hardlinkRecordCount_nil]
  | case2 node rest seen hpath ih =>
    intro hp
    rw [usnGo, hpath]
    exact ih hp
  | case3 node rest seen pth hpath hex ih =>
    intro hp
    rw [usnGo, hpath]
    dsimp only
    rw [if_pos hex]
    exact ih hp
  | case4 node rest seen pth hpath hex hrep ih =>
    intro hp
    have hf := entryPairMatches_of_ne env p
      ⟨pth, (env.readLinkTarget pth).getD "",
        if (env.reparseTag pth).getD 0 = IO_REPARSE_TAG_MOUNT_POINT then
          LinkType.Junction else LinkType.Symlink,
        LinkStatus.Ok⟩ (usn_reparse_type_ne_hard _)
    rw [usnGo, hpath]
    dsimp only
    rw [if_neg hex, if_pos hrep]
    rw [hardlinkRecordCount_cons, hf]
    simpa using ih hp
  | case5 node rest seen pth hpath hex hrep hdir s i c hinfo hcond ih =>
    intro hp
    have hne : (s, i) ≠ p := fun hEq => hcond.2 (hEq ▸ hp)
    have hf := entryPairMatches_hard env p pth (env.hardTarget pth) s i c hinfo
    rw [usnGo, hpath]
    dsimp only
    rw [if_neg hex, if_neg hrep, if_pos hdir, hinfo]
    dsimp only
    rw [if_pos hcond]
    rw [hardlinkRecordCount_cons, hf, if_neg (by simpa using hne)]
    simpa using ih (List.mem_cons_of_mem _ hp)
  | case6 node rest seen pth hpath hex hrep hdir s i c hinfo hcond ih =>
    intro hp
    rw [usnGo, hpath]
    dsimp only
    rw [if_neg hex, if_neg hrep, if_pos hdir, hinfo]
    dsimp only
    rw [if_neg hcond]
    exact ih hp
  | case7 node rest seen pth hpath hex hrep hdir hinfo ih =>
    intro hp
    rw [usnGo, hpath]
    dsimp only
    rw [if_neg hex, if_neg hrep, if_pos hdir, hinfo]
    exact ih hp
  | case8 node rest seen pth hpath hex hrep hdir ih =>
    intro hp
    rw [usnGo, hpath]
    dsimp only
    rw [if_neg hex, if_neg hrep, if_neg hdir]
    exact ih hp

lemma usnGo_count_le_one (env : ScanEnv) (ex : List String) (p : Nat × Nat)
    (nodes : List UsnNodeItem) (seen : List (Nat × Nat)) :
    hardlinkRecordCount env p (usnGo env ex nodes seen) ≤ 1 := by
  induction nodes, seen using usnGo.induct env ex with
  | case1 seen =>
    simp [usnGo, hardlinkRecordCount_nil]
  | case2 node rest seen hpath ih =>
    rw [usnGo, hpath]
    exact ih
  | case3 node rest seen pth hpath hex ih =>
    rw [usnGo, hpath]
    dsimp only
    rw [if_pos hex]
    exact ih
  | case4 node rest seen pth hpath hex hrep ih =>
    have hf := entryPairMatches_of_ne env p
      ⟨pth, (env.readLinkTarget pth).getD "",
        if (env.reparseTag pth).getD 0 = IO_REPARSE_TAG_MOUNT_POINT then
          LinkType.Junction else LinkType.Symlink,
        LinkStatus.Ok⟩ (usn_reparse_type_ne_hard _)
    rw [usnGo, hpath]
    dsimp only
    rw [if_neg hex, if_pos hrep]
    rw [hardlinkRecordCount_cons, hf]
    simpa using ih
  | case5 node rest seen pth hpath hex hrep hdir s i c hinfo hcond ih =>
    have hf := entryPairMatches_hard env p pth (env.hardTarget pth) s i c hinfo
    rw [usnGo, hpath]
    dsimp only
    rw [if_neg hex, if_neg hrep, if_pos hdir, hinfo]
    dsimp only
    rw [if_pos hcond]
    rw [hardlinkRecordCount_cons, hf]
    by_cases hq : (s, i) = p
    · rw [if_pos (by simpa using hq)]
      have hzero := usnGo_count_seen env ex p rest ((s, i) :: seen)
        (by simp [hq])
      omega
    · rw [if_neg (by simpa using hq)]
      simpa using ih
  | case6 node rest seen pth hpath hex hrep hdir s i c hinfo hcond ih =>
    rw [usnGo, hpath]
    dsimp only
    rw [if_neg hex, if_neg hrep, if_pos hdir, hinfo]
    dsimp only
    rw [if_neg hcond]
    exact ih
  | case7 node rest seen pth hpath hex hrep hdir hinfo ih =>
    rw [usnGo, hpath]
    dsimp only
    rw [if_neg hex, if_neg hrep, if_pos hdir, hinfo]
    exact ih
  | case8 node rest seen pth hpath hex hrep hdir ih =>
    rw [usnGo, hpath]
    dsimp only
    rw [if_neg hex, if_neg hrep, if_neg hdir]
    exact ih

/-- A journal node that qualifies as a reachable hard-linked file with
identity `p`: its path resolves, is not excluded, the node is neither a
reparse point nor a directory, and the hard-link probe reports identity `p`
with more than one link. -/
def usnHardQualifier (env : ScanEnv) (ex : List String) (p : Nat × Nat)
    (node : UsnNodeItem) : Prop :=
  ∃ pth, node.resolvedPath = some pth ∧ should_exclude pth ex = false ∧
    node.isReparse = false ∧ node.isDirectory = false ∧
    ∃ c, env.hardInfo pth = some (p.1, p.2, c) ∧ 1 < c

lemma usnGo_count_eq_one (env : ScanEnv) (ex : List String) (p : Nat × Nat)
    (nodes : List UsnNodeItem) (seen : List (Nat × Nat)) (hp : p ∉ seen)
    (hq : ∃ nd ∈ nodes, usnHardQualifier env ex p nd) :
    hardlinkRecordCount env p (usnGo env ex nodes seen) = 1 := by
  revert hp hq
  induction nodes, seen using usnGo.induct env ex with
  | case1 seen =>
    rintro hp ⟨nd, hnd, -⟩
    simp at hnd
  | case2 node rest seen hpath ih =>
    rintro hp ⟨nd, hnd, hqual⟩
    rcases List.mem_cons.1 hnd with hhead | htail
    · subst hhead
      obtain ⟨pth2, hp2, -⟩ := hqual
      rw [hpath] at hp2
      simp at hp2
    · rw [usnGo, hpath]
      exact ih hp ⟨nd, htail, hqual⟩
  | case3 node rest seen pth hpath hex ih =>
    rintro hp ⟨nd, hnd, hqual⟩
    rcases List.mem_cons.1 hnd with hhead | htail
    · subst hhead
      obtain ⟨pth2, hp2, hex2, -⟩ := hqual
      rw [hpath] at hp2
      obtain h := Option.some.inj hp2
      rw [← h] at hex2
      rw [hex2] at hex
      simp at hex
    · rw [usnGo, hpath]
      dsimp only
      rw [if_pos hex]
      exact ih hp ⟨nd, htail, hqual⟩
  | case4 node rest seen pth hpath hex hrep ih =>
    rintro hp ⟨nd, hnd, hqual⟩
    have hf := entryPairMatches_of_ne env p
      ⟨pth, (env.readLinkTarget pth).getD "",
        if (env.reparseTag pth).getD 0 = IO_REPARSE_TAG_MOUNT_POINT then
          LinkType.Junction else LinkType.Symlink,
        LinkStatus.Ok⟩ (usn_reparse_type_ne_hard _)
    rcases List.mem_cons.1 hnd with hhead | htail
    · subst hhead
      obtain ⟨pth2, hp2, -, hrep2, -⟩ := hqual
      rw [hrep2] at hrep
      simp at hrep
    · rw [usnGo, hpath]
      dsimp only
      rw [if_neg hex, if_pos hrep]
      rw [hardlinkRecordCount_cons, hf]
      simpa using ih hp ⟨nd, htail, hqual⟩
  | case5 node rest seen pth hpath hex hrep hdir s i c hinfo hcond ih =>
    rintro hp ⟨nd, hnd, hqual⟩
    have hf := entryPairMatches_hard env p pth (env.hardTarget pth) s i c hinfo
    rw [usnGo, hpath]
    dsimp only
    rw [if_neg hex, if_neg hrep, if_pos hdir, hinfo]
    dsimp only
    rw [if_pos hcond]
    rw [hardlinkRecordCount_cons, hf]
    by_cases hpq : (s, i) = p
    · rw [if_pos (by simpa using hpq)]
      have hzero := usnGo_count_seen env ex p rest ((s, i) :: seen)
        (by simp [hpq])
      omega
    · rw [if_neg (by simpa using hpq)]
      rcases List.mem_cons.1 hnd with hhead | htail
      · subst hhead
        obtain ⟨pth2, hp2, -, -, -, ⟨c2, hc2, -⟩⟩ := hqual
        rw [hpath] at hp2
        obtain hpp := Option.some.inj hp2
        rw [← hpp] at hc2
        rw [hinfo] at hc2
        obtain h := Option.some.inj hc2
        obtain ⟨h1, h23⟩ := Prod.mk.inj h
        obtain ⟨h2, -⟩ := Prod.mk.inj h23
        exact absurd (by rw [h1, h2]) hpq
      · have hp2 : p ∉ (s, i) :: seen := by
          intro hmem
          rcases List.mem_cons.1 hmem with h1 | h2
          · exact hpq h1.symm
          · exact hp h2
        simpa using ih hp2 ⟨nd, htail, hqual⟩
  | case6 node rest seen pth hpath hex hrep hdir s i c hinfo hcond ih =>
    rintro hp ⟨nd, hnd, hqual⟩
    rcases List.mem_cons.1 hnd with hhead | htail
    · subst hhead
      obtain ⟨pth2, hp2, -, -, -, ⟨c2, hc2, hc2gt⟩⟩ := hqual
      rw [hpath] at hp2
      obtain hpp := Option.some.inj hp2
      rw [← hpp] at hc2
      rw [hinfo] at hc2
      obtain h := Option.some.inj hc2
      obtain ⟨h1, h23⟩ := Prod.mk.inj h
      obtain ⟨h2, h3⟩ := Prod.mk.inj h23
      refine absurd ?_ hcond
      refine ⟨by omega, ?_⟩
      intro hmem
      apply hp
      have hsp : (s, i) = p := by rw [h1, h2]
      rwa [hsp] at hmem
    · rw [usnGo, hpath]
      dsimp only
      rw [if_neg hex, if_neg hrep, if_pos hdir, hinfo]
      dsimp only
      rw [if_neg hcond]
      exact ih hp ⟨nd, htail, hqual⟩
  | case7 node rest seen pth hpath hex hrep hdir hinfo ih =>
    rintro hp ⟨nd, hnd, hqual⟩
    rcases List.mem_cons.1 hnd with hhead | htail
    · subst hhead
      obtain ⟨pth2, hp2, -, -, -, ⟨c2, hc2, -⟩⟩ := hqual
      rw [hpath] at hp2
      obtain hpp := Option.some.inj hp2
      rw [← hpp] at hc2
      rw [hinfo] at hc2
      simp at hc2
    · rw [usnGo, hpath]
      dsimp only
      rw [if_neg hex, if_neg hrep, if_pos hdir, hinfo]
      exact ih hp ⟨nd, htail, hqual⟩
  | case8 node rest seen pth hpath hex hrep hdir ih =>
    rintro hp ⟨nd, hnd, hqual⟩
    rcases List.mem_cons.1 hnd with hhead | htail
    · subst hhead
      obtain ⟨pth2, hp2, -, -, hdir2, -⟩ := hqual
      rw [hdir2] at hdir
      simp at hdir
    · rw [usnGo, hpath]
      dsimp only
      rw [if_neg hex, if_neg hrep, if_neg hdir]
      exact ih hp ⟨nd, htail, hqual⟩

/-- C4: in both scan engines at most one Hardlink record is emitted per
(volume-serial, file-index) pair within a scan, and every reachable
hard-linked file (link count > 1, path resolved, not excluded, probe
answering) yields exactly one record for its pair. -/
theorem hardlink_dedup :
    ∀ (env : ScanEnv) (ex : List String) (p : Nat × Nat),
      (∀ items : List WalkItem,
        hardlinkRecordCount env p (collect_walkdir_entries env ex items) ≤ 1) ∧
      (∀ nodes : List UsnNodeItem,
        hardlinkRecordCount env p (scan_with_usn_entries env ex nodes) ≤ 1) ∧
      (∀ items : List WalkItem, (∃ it ∈ items, walkHardQualifier env ex p it) →
        hardlinkRecordCount env p (collect_walkdir_entries env ex items) = 1) ∧
      (∀ nodes : List UsnNodeItem, (∃ nd ∈ nodes, usnHardQualifier env ex p nd) →
        hardlinkRecordCount env p (scan_with_usn_entries env ex nodes) = 1) := by
  intro env ex p
  refine ⟨fun items => ?_, fun nodes => ?_, fun items hq => ?_, fun nodes hq => ?_⟩
  · exact walkGo_count_le_one env ex p items []
  · exact usnGo_count_le_one env ex p nodes []
  · exact walkGo_count_eq_one env ex p items [] (by simp) hq
  · exact usnGo_count_eq_one env ex p nodes [] (by simp) hq

/-- A two-name hard-linked file as the scan oracles see it: both paths map
to the same (volume-serial, file-index) with link count 2. -/
def walkDedupWitnessEnv : ScanEnv :=
  { hardInfo := fun pth =>
      if pth = "C:\\tmp\\a.txt" ∨ pth = "C:\\tmp\\b.txt" then some (7, 42, 2)
      else none,
    hardTarget := fun _ => "C:\\tmp\\b.txt",
    reparseTag := fun _ => none,
    readLinkTarget := fun _ => none,
    fallbackResolvedIsDir := fun _ _ => false }

/-- Witness for C4: scanning the two names of one hard-linked file emits
exactly one Hardlink record for its (volume-serial, file-index) pair. -/
theorem hardlink_dedup_witness :
    hardlinkRecordCount walkDedupWitnessEnv (7, 42)
      (collect_walkdir_entries walkDedupWitnessEnv []
        [⟨"C:\\tmp\\a.txt", some ⟨false, false⟩⟩,
          ⟨"C:\\tmp\\b.txt", some ⟨false, false⟩⟩]) = 1 :=
  (hardlink_dedup walkDedupWitnessEnv [] (7, 42)).2.2.1
    [⟨"C:\\tmp\\a.txt", some ⟨false, false⟩⟩,
      ⟨"C:\\tmp\\b.txt", some ⟨false, false⟩⟩]
    ⟨⟨"C:\\tmp\\a.txt", some ⟨false, false⟩⟩, by simp,
      by decide, ⟨⟨false, false⟩, rfl, rfl, rfl⟩,
      ⟨2, by simp [walkDedupWitnessEnv], by omega⟩⟩

lemma parseUsnLoop_reads (buf : List Nat) (n : Nat) (fuel offset : Nat) :
    ∀ iv ∈ (parseUsnLoop buf n fuel offset).2, iv.1 + iv.2 ≤ n := by
  induction fuel, offset using parseUsnLoop.induct buf n with
  | case1 offset =>
    intro iv hiv
    simp [parseUsnLoop] at hiv
  | case2 fuel offset h1 rl h2 =>
    have h1e : n - offset ≥ 64 := h1
    have h2e : recordLengthAt buf offset = 0 := h2
    rw [parseUsnLoop, if_pos h1]
    dsimp only
    rw [if_pos h2e]
    intro iv hiv
    simp only [List.mem_singleton] at hiv
    subst hiv
    dsimp only
    simp only [usnHeaderSize]
    omega
  | case3 fuel offset h1 rl h2 h3 =>
    have h1e : n - offset ≥ 64 := h1
    have h2e : ¬ recordLengthAt buf offset = 0 := h2
    have h3e : recordLengthAt buf offset < usnHeaderSize := h3
    rw [parseUsnLoop, if_pos h1]
    dsimp only
    rw [if_neg h2e, if_pos h3e]
    intro iv hiv
    simp only [List.mem_singleton] at hiv
    subst hiv
    dsimp only
    simp only [usnHeaderSize]
    omega
  | case4 fuel offset h1 rl h2 h3 re h4 =>
    have h1e : n - offset ≥ 64 := h1
    have h2e : ¬ recordLengthAt buf offset = 0 := h2
    have h3e : ¬ recordLengthAt buf offset < usnHeaderSize := h3
    have h4e : offset + recordLengthAt buf offset > n := h4
    rw [parseUsnLoop, if_pos h1]
    dsimp only
    rw [if_neg h2e, if_neg h3e, if_pos h4e]
    intro iv hiv
    simp only [List.mem_singleton] at hiv
    subst hiv
    dsimp only
    simp only [usnHeaderSize]
    omega
  | case5 fuel offset h1 rl h2 h3 re h4 h5 ns nl ne h6 ih =>
    have h1e : n - offset ≥ 64 := h1
    have h2e : ¬ recordLengthAt buf offset = 0 := h2
    have h3e : ¬ recordLengthAt buf offset < usnHeaderSize := h3
    have h4e : ¬ offset + recordLengthAt buf offset > n := h4
    have h5e : majorVersionAt buf offset = 2 := h5
    have h6e : offset + fileNameOffsetAt buf offset + fileNameLengthAt buf offset ≤
        offset + recordLengthAt buf offset ∧
        fileNameLengthAt buf offset % 2 = 0 := h6
    have ihe : ∀ iv ∈ (parseUsnLoop buf n fuel
        (offset + recordLengthAt buf offset)).2, iv.1 + iv.2 ≤ n := ih
    rw [parseUsnLoop, if_pos h1]
    dsimp only
    rw [if_neg h2e, if_neg h3e, if_neg h4e, if_pos h5e, if_pos h6e]
    intro iv hiv
    rcases List.mem_cons.1 hiv with hh | hiv2
    · subst hh
      dsimp only
      simp only [usnHeaderSize]
      omega
    · rcases List.mem_cons.1 hiv2 with hh | hiv3
      · subst hh
        dsimp only
        have := h6e.1
        omega
      · exact ihe iv hiv3
  | case6 fuel offset h1 rl h2 h3 re h4 h5 ns nl ne h6 ih =>
    have h1e : n - offset ≥ 64 := h1
    have h2e : ¬ recordLengthAt buf offset = 0 := h2
    have h3e : ¬ recordLengthAt buf offset < usnHeaderSize := h3
    have h4e : ¬ offset + recordLengthAt buf offset > n := h4
    have h5e : majorVersionAt buf offset = 2 := h5
    have h6e : ¬ (offset + fileNameOffsetAt buf offset + fileNameLengthAt buf offset ≤
        offset + recordLengthAt buf offset ∧
        fileNameLengthAt buf offset % 2 = 0) := h6
    have ihe : ∀ iv ∈ (parseUsnLoop buf n fuel
        (offset + recordLengthAt buf offset)).2, iv.1 + iv.2 ≤ n := ih
    rw [parseUsnLoop, if_pos h1]
    dsimp only
    rw [if_neg h2e, if_neg h3e, if_neg h4e, if_pos h5e, if_neg h6e]
    intro iv hiv
    rcases List.mem_cons.1 hiv with hh | hiv2
    · subst hh
      dsimp only
      simp only [usnHeaderSize]
      omega
    · exact ihe iv hiv2
  | case7 fuel offset h1 rl h2 h3 re h4 h5 ih =>
    have h1e : n - offset ≥ 64 := h1
    have h2e : ¬ recordLengthAt buf offset = 0 := h2
    have h3e : ¬ recordLengthAt buf offset < usnHeaderSize := h3
    have h4e : ¬ offset + recordLengthAt buf offset > n := h4
    have h5e : ¬ majorVersionAt buf offset = 2 := h5
    have ihe : ∀ iv ∈ (parseUsnLoop buf n fuel
        (offset + recordLengthAt buf offset)).2, iv.1 + iv.2 ≤ n := ih
    rw [parseUsnLoop, if_pos h1]
    dsimp only
    rw [if_neg h2e, if_neg h3e, if_neg h4e, if_neg h5e]
    intro iv hiv
    rcases List.mem_cons.1 hiv with hh | hiv2
    · subst hh
      dsimp only
      simp only [usnHeaderSize]
      omega
    · exact ihe iv hiv2
  | case8 fuel offset h1 =>
    rw [parseUsnLoop, if_neg h1]
    intro iv hiv
    simp at hiv

lemma parseUsnLoop_nodes (buf : List Nat) (n : Nat) (fuel offset : Nat) :
    ∀ e ∈ (parseUsnLoop buf n fuel offset).1,
      ∃ off, valid_v2_record_at buf n off ∧ e = frn_node_at buf off := by
  induction fuel, offset using parseUsnLoop.induct buf n with
  | case1 offset =>
    intro e he
    simp [parseUsnLoop] at he
  | case2 fuel offset h1 rl h2 =>
    have h2e : recordLengthAt buf offset = 0 := h2
    rw [parseUsnLoop, if_pos h1]
    dsimp only
    rw [if_pos h2e]
    intro e he
    simp at he
  | case3 fuel offset h1 rl h2 h3 =>
    have h2e : ¬ recordLengthAt buf offset = 0 := h2
    have h3e : recordLengthAt buf offset < usnHeaderSize := h3
    rw [parseUsnLoop, if_pos h1]
    dsimp only
    rw [if_neg h2e, if_pos h3e]
    intro e he
    simp at he
  | case4 fuel offset h1 rl h2 h3 re h4 =>
    have h2e : ¬ recordLengthAt buf offset = 0 := h2
    have h3e : ¬ recordLengthAt buf offset < usnHeaderSize := h3
    have h4e : offset + recordLengthAt buf offset > n := h4
    rw [parseUsnLoop, if_pos h1]
    dsimp only
    rw [if_neg h2e, if_neg h3e, if_pos h4e]
    intro e he
    simp at he
  | case5 fuel offset h1 rl h2 h3 re h4 h5 ns nl ne h6 ih =>
    have h1e : n - offset ≥ 64 := h1
    have h2e : ¬ recordLengthAt buf offset = 0 := h2
    have h3e : ¬ recordLengthAt buf offset < usnHeaderSize := h3
    have h4e : ¬ offset + recordLengthAt buf offset > n := h4
    have h5e : majorVersionAt buf offset = 2 := h5
    have h6e : offset + fileNameOffsetAt buf offset + fileNameLengthAt buf offset ≤
        offset + recordLengthAt buf offset ∧
        fileNameLengthAt buf offset % 2 = 0 := h6
    have ihe : ∀ e ∈ (parseUsnLoop buf n fuel
          (offset + recordLengthAt buf offset)).1,
        ∃ off, valid_v2_record_at buf n off ∧ e = frn_node_at buf off := ih
    rw [parseUsnLoop, if_pos h1]
    dsimp only
    rw [if_neg h2e, if_neg h3e, if_neg h4e, if_pos h5e, if_pos h6e]
    intro e he
    rcases List.mem_cons.1 he with hh | he2
    · refine ⟨offset, ⟨?_, ?_, ?_, h5e, h6e.2, h6e.1⟩, ?_⟩
      · simp only [usnHeaderSize]
        omega
      · simp only [usnHeaderSize] at h3e ⊢
        omega
      · omega
      · rw [hh]
        rfl
    · exact ihe e he2
  | case6 fuel offset h1 rl h2 h3 re h4 h5 ns nl ne h6 ih =>
    have h2e : ¬ recordLengthAt buf offset = 0 := h2
    have h3e : ¬ recordLengthAt buf offset < usnHeaderSize := h3
    have h4e : ¬ offset + recordLengthAt buf offset > n := h4
    have h5e : majorVersionAt buf offset = 2 := h5
    have h6e : ¬ (offset + fileNameOffsetAt buf offset + fileNameLengthAt buf offset ≤
        offset + recordLengthAt buf offset ∧
        fileNameLengthAt buf offset % 2 = 0) := h6
    have ihe : ∀ e ∈ (parseUsnLoop buf n fuel
          (offset + recordLengthAt buf offset)).1,
        ∃ off, valid_v2_record_at buf n off ∧ e = frn_node_at buf off := ih
    rw [parseUsnLoop, if_pos h1]
    dsimp only
    rw [if_neg h2e, if_neg h3e, if_neg h4e, if_pos h5e, if_neg h6e]
    intro e he
    exact ihe e he
  | case7 fuel offset h1 rl h2 h3 re h4 h5 ih =>
    have h2e : ¬ recordLengthAt buf offset = 0 := h2
    have h3e : ¬ recordLengthAt buf offset < usnHeaderSize := h3
    have h4e : ¬ offset + recordLengthAt buf offset > n := h4
    have h5e : ¬ majorVersionAt buf offset = 2 := h5
    have ihe : ∀ e ∈ (parseUsnLoop buf n fuel
          (offset + recordLengthAt buf offset)).1,
        ∃ off, valid_v2_record_at buf n off ∧ e = frn_node_at buf off := ih
    rw [parseUsnLoop, if_pos h1]
    dsimp only
    rw [if_neg h2e, if_neg h3e, if_neg h4e, if_neg h5e]
    intro e he
    exact ihe e he
  | case8 fuel offset h1 =>
    rw [parseUsnLoop, if_neg h1]
    intro e he
    simp at he

/-- C7: the change-journal parser stays inside the returned-bytes region —
every byte interval it dereferences (the 8-byte page header, each unaligned
64-byte record-header read, each file-name slice) ends at or before
`bytes_returned` — and every node it inserts comes from a record whose
header fits, whose declared length is at least the header size and keeps the
record inside the returned bytes, whose major version is 2, and whose
file-name region has even length and ends within the record. -/
theorem parse_usn_records_safe :
    ∀ (buf : List Nat) (n : Nat),
      (∀ iv ∈ (parse_usn_records buf n).1.2, iv.1 + iv.2 ≤ n) ∧
      (∀ e ∈ (parse_usn_records buf n).1.1,
        ∃ off, valid_v2_record_at buf n off ∧ e = frn_node_at buf off) := by
  intro buf n
  unfold parse_usn_records
  by_cases hn : n < 8
  · rw [if_pos hn]
    constructor
    · intro iv hiv
      simp at hiv
    · intro e he
      simp at he
  · rw [if_neg hn]
    dsimp only
    constructor
    · intro iv hiv
      rcases List.mem_cons.1 hiv with hh | hiv2
      · subst hh
        dsimp only
        omega
      · exact parseUsnLoop_reads buf n n 8 iv hiv2
    · intro e he
      exact parseUsnLoop_nodes buf n n 8 e he

/-- Witness for C7 at a concrete 8-byte page: the single read is the page
header and it lies within the returned bytes. -/
theorem parse_usn_records_safe_witness :
    (0, 8) ∈ (parse_usn_records (List.replicate 8 0) 8).1.2 ∧ 0 + 8 ≤ 8 :=
  ⟨by decide,
    (parse_usn_records_safe (List.replicate 8 0) 8).1 (0, 8) (by decide)⟩
